import Mathlib

/-!
# Display-mode adapter of the X11 backend (x11_fullscreen.c)

A shallow embedding of `src/x11/x11_fullscreen.c`: the bit-depth heuristic
`bpp2rgb`, the closest-mode finder, the mode setter and restorer, the mode
lister and the desktop-mode getter, followed by the properties proved about
them.

Conventions of the embedding.

* C `int` values are Lean integers. Where the source computes a value that
  can leave the 32-bit range (the squared distance of the size search, the
  rate difference and its `abs`), the result is reduced with `wrap32`, the
  two's complement wrap-around of the target machines. The `(short)` cast is
  `wrap16`.
* The X display connection is explicit state: `Display` holds, per screen
  number, what the Xlib, GLX, XRandR and XF86VidMode queries of the source
  return, and the journal of the configuration requests sent to the server.
* `_glfwLibrary` is passed in and returned explicitly as a `GLFWlibrary`.
* The file selects one extension at compile time. `_glfwGetClosestVideoMode`,
  `_glfwSetVideoModeMODE`, `_glfwRestoreVideoMode` and
  `_glfwPlatformGetDesktopMode` are embedded in the `_GLFW_HAS_XRANDR`
  configuration (the first preprocessor branch). `_glfwPlatformGetVideoModes`
  takes the configuration as a `Build` argument, since its resolution array is
  built differently by the two branches.
-/

namespace GLFW

/-! ## Machine integers -/

/-- Largest value of a C `int` (`INT_MAX` of limits.h, 32-bit int). -/
def INT_MAX : Int := 2147483647

/-- Reduction of an integer to the 32-bit two's complement range. -/
def wrap32 (x : Int) : Int := (x + 2147483648) % 4294967296 - 2147483648

/-- Reduction of an integer to the 16-bit two's complement range: the
`(short)` cast. -/
def wrap16 (x : Int) : Int := (x + 32768) % 65536 - 32768

/-- The C library `abs` on a 32-bit int: the negation wraps, so that
`abs32 (-2147483648) = -2147483648`. -/
def abs32 (x : Int) : Int := if x < 0 then wrap32 (-x) else x

/-! ## bpp2rgb -/

/-- Embedding of `bpp2rgb(bpp, &r, &g, &b)`: the triple `(r, g, b)`. The C
division truncates towards zero. -/
def bpp2rgb (bpp : Int) : Int × Int × Int :=
  let bpp := if bpp = 32 then 24 else bpp
  let r := Int.tdiv bpp 3
  let g := Int.tdiv bpp 3
  let b := Int.tdiv bpp 3
  let delta := bpp - r * 3
  let g := if delta ≥ 1 then g + 1 else g
  let r := if delta = 2 then r + 1 else r
  (r, g, b)

/-! ## Data model -/

/-- One entry of the size list returned by `XRRConfigSizes`: pixel size and
physical size in millimetres. -/
structure XRRScreenSize where
  width : Int
  height : Int
  mwidth : Int
  mheight : Int
deriving DecidableEq, Repr, Inhabited

/-- The fields of an XF86VidMode mode line that the source reads. -/
structure XF86VidModeModeInfo where
  hdisplay : Int
  vdisplay : Int
deriving DecidableEq, Repr, Inhabited

/-- One visual of the list returned by `XGetVisualInfo`, with the two values
`glXGetConfig` stores for it (`GLX_USE_GL` and `GLX_RGBA`). -/
structure XVisualInfo where
  depth : Int
  gl : Int
  rgba : Int
deriving DecidableEq, Repr, Inhabited

/-- Modelled from the spec: the declaration of `GLFWvidmode` is in a header
outside this file; its fields are the five of the video mode value of the
data model, all assigned by the source. -/
structure GLFWvidmode where
  width : Int
  height : Int
  redBits : Int
  greenBits : Int
  blueBits : Int
deriving DecidableEq, Repr, Inhabited

/-- The local `struct _glfwResolution`. -/
structure _glfwResolution where
  width : Int
  height : Int
deriving DecidableEq, Repr, Inhabited

/-- What the X server holds for one screen. -/
structure XScreen where
  /-- Value of `DisplayWidth`. -/
  width : Int
  /-- Value of `DisplayHeight`. -/
  height : Int
  /-- Value of `DefaultDepth`. -/
  depth : Int
  /-- Size list of `XRRConfigSizes`. -/
  sizes : List XRRScreenSize
  /-- Rate lists of `XRRConfigRates`, one per size index (C `short` values). -/
  rates : List (List Int)
  /-- Rotations the screen supports. -/
  rotations : List Int
  /-- Current size index, as reported by `XRRConfigCurrentConfiguration`. -/
  sizeID : Int
  /-- Current rotation, as reported by `XRRConfigCurrentConfiguration`. -/
  rotation : Int
  /-- Current refresh rate. -/
  rate : Int
  /-- Mode lines of `XF86VidModeGetAllModeLines`. -/
  modelines : List XF86VidModeModeInfo
deriving Repr, Inhabited

/-- A configuration request sent to the server: screen, size index, rotation
and rate (0 for the default rate). -/
structure ConfigRequest where
  screen : Int
  size_index : Int
  rotation : Int
  rate : Int
deriving DecidableEq, Repr

/-- The display connection `_glfwLibrary.X11.display`. -/
structure Display where
  /-- Value of `DefaultScreen`. -/
  defaultScreen : Int
  /-- State of each screen. -/
  screens : Int → XScreen
  /-- Result of `XGetVisualInfo`: `none` for NULL. -/
  visuals : Option (List XVisualInfo)
  /-- Journal of the configuration requests issued so far, oldest first. -/
  requests : List ConfigRequest

/-- Modelled from the spec: the declaration of `_glfwLibrary` is in a header
outside this file. Fields `_glfwLibrary.X11.XRandR` that the source reads. -/
structure LibXRandR where
  available : Bool
deriving DecidableEq, Repr

/-- Modelled from the spec: the declaration of `_glfwLibrary` is in a header
outside this file. Fields `_glfwLibrary.X11.XF86VidMode` that the source reads. -/
structure LibXF86VidMode where
  available : Bool
deriving DecidableEq, Repr

/-- Modelled from the spec: the declaration of `_glfwLibrary` is in a header
outside this file. Fields `_glfwLibrary.X11.FS` of the XRandR configuration:
the saved original mode (size index, rotation, display size) and the changed
flag. -/
structure LibFS where
  modeChanged : Bool
  oldSizeID : Int
  oldRotation : Int
  oldWidth : Int
  oldHeight : Int
deriving DecidableEq, Repr

/-- Modelled from the spec: the declaration of `_glfwLibrary` is in a header
outside this file. Fields `_glfwLibrary.X11` that the source uses. -/
structure LibX11 where
  display : Display
  XRandR : LibXRandR
  XF86VidMode : LibXF86VidMode
  FS : LibFS

/-- Modelled from the spec: the declaration of `_glfwLibrary` is in a header
outside this file. The global library state. -/
structure GLFWlibrary where
  X11 : LibX11

/-- Compile-time selection of the mode-query extension. -/
inductive Build where
  | HAS_XRANDR
  | HAS_XF86VIDMODE
  | NONE
deriving DecidableEq, Repr

/-! ## Xlib and XRandR primitives -/

/-- The rotation constant `RR_Rotate_0`. -/
def RR_Rotate_0 : Int := 1

/-- The rotation constant `RR_Rotate_90`. -/
def RR_Rotate_90 : Int := 2

/-- The rotation constant `RR_Rotate_270`. -/
def RR_Rotate_270 : Int := 8

/-- Value of `DisplayWidth(dpy, screen)`. -/
def DisplayWidth (dpy : Display) (screen : Int) : Int := (dpy.screens screen).width

/-- Value of `DisplayHeight(dpy, screen)`. -/
def DisplayHeight (dpy : Display) (screen : Int) : Int := (dpy.screens screen).height

/-- Value of `DefaultDepth(dpy, screen)`. -/
def DefaultDepth (dpy : Display) (screen : Int) : Int := (dpy.screens screen).depth

/-- Element `i` of a C array given as a list. -/
def arrayAt {α : Type} [Inhabited α] (l : List α) (i : Int) : α := l.getD i.toNat default

/-- Rate list `XRRConfigRates(sc, size_index, &ratecount)`: empty when the
index names no size. -/
def XRRConfigRates (s : XScreen) (size_index : Int) : List Int :=
  if 0 ≤ size_index then s.rates.getD size_index.toNat [] else []

/-- Whether the server accepts a configuration request for this screen: the
size index names an entry of the size list, the rotation is supported, and the
rate is 0 (server default) or one of the rates of that size. -/
def XScreen.accepts (s : XScreen) (size_index rotation rate : Int) : Bool :=
  decide (0 ≤ size_index) && decide (size_index < s.sizes.length) &&
    s.rotations.contains rotation &&
    (rate == 0 || (XRRConfigRates s size_index).contains rate)

/-- The screen after an accepted configuration request. -/
def XScreen.configure (s : XScreen) (size_index rotation rate : Int) : XScreen :=
  let sz := arrayAt s.sizes size_index
  let swap := rotation = RR_Rotate_90 ∨ rotation = RR_Rotate_270
  { s with
    sizeID := size_index
    rotation := rotation
    rate := if rate = 0 then (XRRConfigRates s size_index).headD 0 else rate
    width := if swap then sz.height else sz.width
    height := if swap then sz.width else sz.height }

/-- Model of `XRRSetScreenConfigAndRate`: the request is journalled; the server
applies it when it accepts it and otherwise leaves the screen as it is (the
source ignores the returned status). -/
def XRRSetScreenConfigAndRate (dpy : Display) (screen size_index rotation rate : Int) :
    Display :=
  let s := dpy.screens screen
  let journal := dpy.requests ++ [ConfigRequest.mk screen size_index rotation rate]
  if s.accepts size_index rotation rate then
    { dpy with
      screens := Function.update dpy.screens screen (s.configure size_index rotation rate)
      requests := journal }
  else
    { dpy with requests := journal }

/-- Model of `XRRSetScreenConfig`: the request with the default rate. -/
def XRRSetScreenConfig (dpy : Display) (screen size_index rotation : Int) : Display :=
  XRRSetScreenConfigAndRate dpy screen size_index rotation 0

/-! ## _glfwGetClosestVideoMode -/

/-- The `match` value of the size search for one list entry, in 32-bit
arithmetic: `(w - width)*(w - width) + (h - height)*(h - height)`. -/
def sizeMatch (width height : Int) (s : XRRScreenSize) : Int :=
  let dw := wrap32 (width - s.width)
  let dh := wrap32 (height - s.height)
  wrap32 (wrap32 (dw * dw) + wrap32 (dh * dh))

/-- The size loop `for (i = 0; i < sizecount; i++)` from index `i` on, with
the remaining entries of `sizelist`; the state is `(bestsize, bestmatch)`. -/
def sizeLoop (width height : Int) : List XRRScreenSize → Int → Int × Int → Int × Int
  | [], _, st => st
  | s :: rest, i, (bestsize, bestmatch) =>
    let m := sizeMatch width height s
    if m < bestmatch then sizeLoop width height rest (i + 1) (i, m)
    else sizeLoop width height rest (i + 1) (bestsize, bestmatch)

/-- The `match` value of the rate search for one list entry:
`abs(ratelist[i] - *rate)` in 32-bit arithmetic. -/
def rateMatch (rate r : Int) : Int := abs32 (wrap32 (r - rate))

/-- The rate loop `for (i = 0; i < ratecount; i++)` over the remaining entries
of `ratelist`; the state is `(bestrate, bestmatch)`. -/
def rateLoop (rate : Int) : List Int → Int × Int → Int × Int
  | [], st => st
  | r :: rest, (bestrate, bestmatch) =>
    let m := rateMatch rate r
    if m < bestmatch then rateLoop rate rest (r, m)
    else rateLoop rate rest (bestrate, bestmatch)

/-- Result of `_glfwGetClosestVideoMode`: the returned index and the values
left in `*width`, `*height` and `*rate`. -/
structure ClosestVideoMode where
  index : Int
  width : Int
  height : Int
  rate : Int
deriving DecidableEq, Repr

/-- Embedding of `_glfwGetClosestVideoMode(screen, &width, &height, &rate)`. -/
def _glfwGetClosestVideoMode (lib : GLFWlibrary) (screen width height rate : Int) :
    ClosestVideoMode :=
  let scr := lib.X11.display.screens screen
  let fallback : ClosestVideoMode :=
    { index := 0
      width := DisplayWidth lib.X11.display screen
      height := DisplayHeight lib.X11.display screen
      rate := rate }
  if lib.X11.XRandR.available then
    let sizelist := scr.sizes
    let bestsize := (sizeLoop width height sizelist 0 (-1, INT_MAX)).1
    if bestsize ≠ -1 then
      let width := (arrayAt sizelist bestsize).width
      let height := (arrayAt sizelist bestsize).height
      let rate :=
        if rate > 0 then
          let ratelist := XRRConfigRates scr bestsize
          let bestrate := (rateLoop rate ratelist (-1, INT_MAX)).1
          if bestrate ≠ -1 then bestrate else rate
        else rate
      { index := bestsize, width := width, height := height, rate := rate }
    else fallback
  else fallback

/-! ## _glfwSetVideoModeMODE, _glfwSetVideoMode, _glfwRestoreVideoMode -/

/-- Embedding of `_glfwSetVideoModeMODE(screen, mode, rate)`. -/
def _glfwSetVideoModeMODE (lib : GLFWlibrary) (screen mode rate : Int) : GLFWlibrary :=
  if lib.X11.XRandR.available then
    let dpy := lib.X11.display
    let fs :=
      if !lib.X11.FS.modeChanged then
        { oldSizeID := (dpy.screens screen).sizeID
          oldRotation := (dpy.screens screen).rotation
          oldWidth := DisplayWidth dpy screen
          oldHeight := DisplayHeight dpy screen
          modeChanged := true : LibFS }
      else lib.X11.FS
    let dpy :=
      if rate > 0 then
        XRRSetScreenConfigAndRate dpy screen mode RR_Rotate_0 (wrap16 rate)
      else
        XRRSetScreenConfig dpy screen mode RR_Rotate_0
    { lib with X11 := { lib.X11 with display := dpy, FS := fs } }
  else lib

/-- Embedding of `_glfwSetVideoMode(screen, &width, &height, &rate)`: the new
library state and the resolved mode. -/
def _glfwSetVideoMode (lib : GLFWlibrary) (screen width height rate : Int) :
    GLFWlibrary × ClosestVideoMode :=
  let best := _glfwGetClosestVideoMode lib screen width height rate
  (_glfwSetVideoModeMODE lib screen best.index best.rate, best)

/-- Embedding of `_glfwRestoreVideoMode(screen)`. -/
def _glfwRestoreVideoMode (lib : GLFWlibrary) (screen : Int) : GLFWlibrary :=
  if lib.X11.FS.modeChanged then
    let dpy :=
      if lib.X11.XRandR.available then
        XRRSetScreenConfig lib.X11.display screen lib.X11.FS.oldSizeID lib.X11.FS.oldRotation
      else lib.X11.display
    { lib with X11 := { lib.X11 with display := dpy, FS := { lib.X11.FS with modeChanged := false } } }
  else lib

/-! ## _glfwPlatformGetVideoModes -/

/-- The packed colour format `(r << 16) | (g << 8) | b`; the left shifts are
written as multiplications by 65536 and 256. -/
def packRGB (r g b : Int) : Int := Int.lor (Int.lor (r * 65536) (g * 256)) b

/-- The loop that builds `rgbarray` from the remaining visuals. -/
def buildRGBArray : List XVisualInfo → List Int → List Int
  | [], rgbarray => rgbarray
  | v :: rest, rgbarray =>
    if v.gl ≠ 0 ∧ v.rgba ≠ 0 then
      let (r, g, b) := bpp2rgb v.depth
      let depth := packRGB r g b
      let l := rgbarray.indexOf depth
      if l ≥ rgbarray.length then buildRGBArray rest (rgbarray ++ [depth])
      else buildRGBArray rest rgbarray
    else buildRGBArray rest rgbarray

/-- The XRandR loop that fills `resarray` from `sizelist`. -/
def buildResXRandR : List XRRScreenSize → List _glfwResolution → List _glfwResolution
  | [], resarray => resarray
  | s :: rest, resarray =>
    buildResXRandR rest (resarray ++ [{ width := s.width, height := s.height }])

/-- The XF86VidMode loop that fills `resarray` from `modelist`. -/
def buildResVidMode : List XF86VidModeModeInfo → List _glfwResolution → List _glfwResolution
  | [], resarray => resarray
  | m :: rest, resarray =>
    let width := m.hdisplay
    let height := m.vdisplay
    let l := resarray.findIdx (fun r => decide (width = r.width ∧ height = r.height))
    if l ≥ resarray.length then
      buildResVidMode rest (resarray ++ [{ width := width, height := height }])
    else buildResVidMode rest resarray

/-- The resolution array `resarray` of `_glfwPlatformGetVideoModes`, with the
fall-back to the display size when no extension filled it. `malloc` is taken
to return a non-NULL block, also for a size of zero, so that `resarray` is
NULL (`none`) exactly when no extension branch ran. -/
def buildResArray (build : Build) (lib : GLFWlibrary) : List _glfwResolution :=
  let dpy := lib.X11.display
  let screen := dpy.defaultScreen
  let resarray : Option (List _glfwResolution) :=
    match build with
    | Build.HAS_XRANDR =>
      if lib.X11.XRandR.available then
        some (buildResXRandR (dpy.screens screen).sizes [])
      else none
    | Build.HAS_XF86VIDMODE =>
      if lib.X11.XF86VidMode.available then
        some (buildResVidMode (dpy.screens screen).modelines [])
      else none
    | Build.NONE => none
  match resarray with
  | some a => a
  | none => [{ width := DisplayWidth dpy screen, height := DisplayHeight dpy screen }]

/-- The video mode written for colour format `rgb` and resolution `res`. -/
def permEntry (rgb : Int) (res : _glfwResolution) : GLFWvidmode :=
  { width := res.width
    height := res.height
    redBits := Int.land (rgb >>> 16) 255
    greenBits := Int.land (rgb >>> 8) 255
    blueBits := Int.land rgb 255 }

/-- The inner permutation loop `for (l = 0; l < rescount && count < maxcount; l++)`
over the remaining resolutions; the state is the caller's array and `count`. -/
def permInner (rgb : Int) (maxcount : Int) :
    List _glfwResolution → (Int → GLFWvidmode) × Int → (Int → GLFWvidmode) × Int
  | [], st => st
  | res :: rest, (list, count) =>
    if count < maxcount then
      permInner rgb maxcount rest (Function.update list count (permEntry rgb res), count + 1)
    else (list, count)

/-- The outer permutation loop `for (k = 0; k < rgbcount && count < maxcount; k++)`
over the remaining colour formats. -/
def permOuter (resarray : List _glfwResolution) (maxcount : Int) :
    List Int → (Int → GLFWvidmode) × Int → (Int → GLFWvidmode) × Int
  | [], st => st
  | rgb :: rest, (list, count) =>
    if count < maxcount then
      permOuter resarray maxcount rest (permInner rgb maxcount resarray (list, count))
    else (list, count)

/-- Embedding of `_glfwPlatformGetVideoModes(list, maxcount)`: the caller's
array after the call (as a function of the index) and the returned count. -/
def _glfwPlatformGetVideoModes (build : Build) (lib : GLFWlibrary)
    (list : Int → GLFWvidmode) (maxcount : Int) : (Int → GLFWvidmode) × Int :=
  match lib.X11.display.visuals with
  | none => (list, 0)
  | some vislist =>
    let rgbarray := buildRGBArray vislist []
    let resarray := buildResArray build lib
    permOuter resarray maxcount rgbarray (list, 0)

/-! ## _glfwPlatformGetDesktopMode -/

/-- Embedding of `_glfwPlatformGetDesktopMode(mode)`: the contents of `*mode`
after the call. -/
def _glfwPlatformGetDesktopMode (lib : GLFWlibrary) (mode : GLFWvidmode) : GLFWvidmode :=
  let dpy := lib.X11.display
  let screen := dpy.defaultScreen
  let bpp := DefaultDepth dpy screen
  let (r, g, b) := bpp2rgb bpp
  let mode := { mode with redBits := r, greenBits := g, blueBits := b }
  if lib.X11.XRandR.available ∧ lib.X11.FS.modeChanged then
    { mode with width := lib.X11.FS.oldWidth, height := lib.X11.FS.oldHeight }
  else
    { mode with width := DisplayWidth dpy screen, height := DisplayHeight dpy screen }

/-! ## Sample states -/

/-- A screen with three sizes, used to evaluate the functions. -/
def sampleScreen : XScreen :=
  { width := 1024, height := 768, depth := 24
    sizes := [⟨1024, 768, 270, 203⟩, ⟨800, 600, 270, 203⟩, ⟨640, 480, 270, 203⟩]
    rates := [[60, 75], [60, 72, 85], [60]]
    rotations := [1]
    sizeID := 0, rotation := 1, rate := 60
    modelines := [⟨1024, 768⟩, ⟨800, 600⟩, ⟨800, 600⟩] }

/-- A library state over `sampleScreen` with XRandR available and no mode
change recorded. -/
def sampleLib : GLFWlibrary :=
  { X11 :=
    { display :=
      { defaultScreen := 0
        screens := fun _ => sampleScreen
        visuals := some [⟨24, 1, 1⟩, ⟨16, 1, 1⟩, ⟨24, 1, 1⟩, ⟨8, 1, 0⟩]
        requests := [] }
      XRandR := ⟨true⟩
      XF86VidMode := ⟨false⟩
      FS := ⟨false, 0, 0, 0, 0⟩ } }

/-! ## Specification vocabulary -/

/-- The squared Euclidean distance of a list entry to the desired size, over
the integers. -/
def sqDist (width height : Int) (s : XRRScreenSize) : Int :=
  (width - s.width) * (width - s.width) + (height - s.height) * (height - s.height)

/-- The value left in `*rate` once size index `j` has been chosen. -/
def resolvedRate (scr : XScreen) (j rate : Int) : Int :=
  if rate > 0 then
    if (rateLoop rate (XRRConfigRates scr j) (-1, INT_MAX)).1 ≠ -1 then
      (rateLoop rate (XRRConfigRates scr j) (-1, INT_MAX)).1
    else rate
  else rate

/-- The rate `r` is the entry of `ratelist` closest to `rate` in absolute
difference, the first such entry in list order. -/
def FirstClosestRate (ratelist : List Int) (rate r : Int) : Prop :=
  ∃ j : Nat, ratelist[j]? = some r ∧
    (∀ (k : Nat) (t : Int), ratelist[k]? = some t → |r - rate| ≤ |t - rate|) ∧
    (∀ (k : Nat) (t : Int), k < j → ratelist[k]? = some t → |r - rate| < |t - rate|)

/-- A sequence of `_glfwSetVideoModeMODE` calls on one screen, each given as
`(mode, rate)`. -/
def setModes (lib : GLFWlibrary) (screen : Int) : List (Int × Int) → GLFWlibrary
  | [] => lib
  | (mode, rate) :: rest => setModes (_glfwSetVideoModeMODE lib screen mode rate) screen rest

/-- The current configuration of the screen is one the server accepts. -/
def XScreen.WellFormed (s : XScreen) : Prop := s.accepts s.sizeID s.rotation 0 = true

/-- The library state `sampleLib` with another screen description. -/
def libWithScreen (scr : XScreen) : GLFWlibrary :=
  { sampleLib with X11 := { sampleLib.X11 with
      display := { sampleLib.X11.display with screens := fun _ => scr } } }

/-- A screen offering an 800x600 and a 50000x600 size. -/
def wideScreen : XScreen :=
  { sampleScreen with sizes := [⟨800, 600, 270, 203⟩, ⟨50000, 600, 270, 203⟩], rates := [[60], [60]] }

/-- The sample screen with no rate reported for any size. -/
def noRateScreen : XScreen := { sampleScreen with rates := [] }

/-- A screen whose only size reports the single rate 0. -/
def zeroRateScreen : XScreen :=
  { sampleScreen with sizes := [⟨800, 600, 270, 203⟩], rates := [[0]] }

/-- A screen whose only size reports the rates -1 and 50. -/
def minusOneRateScreen : XScreen :=
  { sampleScreen with sizes := [⟨800, 600, 270, 203⟩], rates := [[-1, 50]] }

/-- A screen whose size list holds 800x600 twice, with different physical
sizes. -/
def dupScreen : XScreen :=
  { sampleScreen with sizes := [⟨800, 600, 270, 203⟩, ⟨800, 600, 406, 305⟩], rates := [[60], [60]] }

/-- A screen offering an 800x600 and a 1024x768 size. -/
def twoSizeScreen : XScreen :=
  { sampleScreen with sizes := [⟨800, 600, 270, 203⟩, ⟨1024, 768, 270, 203⟩], rates := [[60], [60]] }

/-! # Properties -/

/-! ## Arithmetic of the 32-bit wrap-around -/

theorem wrap32_lt (x : Int) : wrap32 x < 2147483648 := by
  unfold wrap32; omega

theorem wrap32_ge (x : Int) : -2147483648 ≤ wrap32 x := by
  unfold wrap32; omega

theorem wrap32_emod_four (x : Int) : wrap32 x % 4 = x % 4 := by
  unfold wrap32; omega

theorem wrap32_of_range (x : Int) (h1 : -2147483648 ≤ x) (h2 : x < 2147483648) :
    wrap32 x = x := by
  unfold wrap32; omega

theorem sq_emod_four (a : Int) : a * a % 4 = 0 ∨ a * a % 4 = 1 := by
  have h1 : 0 ≤ a % 4 := Int.emod_nonneg a (by norm_num)
  have h2 : a % 4 < 4 := Int.emod_lt_of_pos a (by norm_num)
  rw [Int.mul_emod]
  generalize a % 4 = r at h1 h2
  interval_cases r <;> simp

/-- The 32-bit squared distance is never congruent to 3 modulo 4, hence
never the sentinel `INT_MAX`. -/
theorem sizeMatch_lt_INT_MAX (width height : Int) (s : XRRScreenSize) :
    sizeMatch width height s < INT_MAX := by
  have hlt := wrap32_lt (wrap32 (wrap32 (width - s.width) * wrap32 (width - s.width)) +
    wrap32 (wrap32 (height - s.height) * wrap32 (height - s.height)))
  have hm := wrap32_emod_four (wrap32 (wrap32 (width - s.width) * wrap32 (width - s.width)) +
    wrap32 (wrap32 (height - s.height) * wrap32 (height - s.height)))
  have ha := wrap32_emod_four (wrap32 (width - s.width) * wrap32 (width - s.width))
  have hb := wrap32_emod_four (wrap32 (height - s.height) * wrap32 (height - s.height))
  have hsa := sq_emod_four (wrap32 (width - s.width))
  have hsb := sq_emod_four (wrap32 (height - s.height))
  unfold sizeMatch INT_MAX
  simp only []
  omega

/-! ## The size loop selects the first minimum of `sizeMatch` -/

/-- Outcome of the size loop started at index `i` in state `(bs, bm)`: either
no entry beats `bm` and the state is unchanged, or the state names the first
entry of least `sizeMatch`. -/
theorem sizeLoop_spec (width height : Int) (l : List XRRScreenSize) :
    ∀ (i bs bm : Int),
      (sizeLoop width height l i (bs, bm) = (bs, bm) ∧
        ∀ s ∈ l, bm ≤ sizeMatch width height s) ∨
      (∃ (j : Nat) (s : XRRScreenSize), l[j]? = some s ∧
        sizeLoop width height l i (bs, bm) = (i + j, sizeMatch width height s) ∧
        sizeMatch width height s < bm ∧
        (∀ (k : Nat) (t : XRRScreenSize), l[k]? = some t →
          sizeMatch width height s ≤ sizeMatch width height t) ∧
        (∀ (k : Nat) (t : XRRScreenSize), k < j → l[k]? = some t →
          sizeMatch width height s < sizeMatch width height t)) := by
  induction l with
  | nil => intro i bs bm; left; simp [sizeLoop]
  | cons a rest ih =>
    intro i bs bm
    by_cases hm : sizeMatch width height a < bm
    · have hstep : sizeLoop width height (a :: rest) i (bs, bm) =
          sizeLoop width height rest (i + 1) (i, sizeMatch width height a) := by
        simp [sizeLoop, hm]
      rcases ih (i + 1) i (sizeMatch width height a) with ⟨heq, hall⟩ | ⟨j, s, hj, heq, hlt, hmin, hfirst⟩
      · right
        refine ⟨0, a, by simp, ?_, hm, ?_, ?_⟩
        · rw [hstep, heq]; simp
        · intro k t hk
          cases k with
          | zero => simp at hk; subst hk; exact le_refl _
          | succ k =>
            simp at hk
            exact hall t (List.getElem?_mem hk)
        · intro k t hk; omega
      · right
        refine ⟨j + 1, s, by simpa using hj, ?_, lt_trans hlt hm, ?_, ?_⟩
        · rw [hstep, heq]; push_cast; congr 1; ring
        · intro k t hk
          cases k with
          | zero => simp at hk; subst hk; exact le_of_lt hlt
          | succ k => simp at hk; exact hmin k t hk
        · intro k t hkj hk
          cases k with
          | zero => simp at hk; subst hk; exact hlt
          | succ k => simp at hk; exact hfirst k t (by omega) hk
    · have hstep : sizeLoop width height (a :: rest) i (bs, bm) =
          sizeLoop width height rest (i + 1) (bs, bm) := by
        simp [sizeLoop, hm]
      rcases ih (i + 1) bs bm with ⟨heq, hall⟩ | ⟨j, s, hj, heq, hlt, hmin, hfirst⟩
      · left
        refine ⟨by rw [hstep, heq], ?_⟩
        intro t ht
        rcases List.mem_cons.mp ht with h | h
        · subst h; exact not_lt.mp hm
        · exact hall t h
      · right
        refine ⟨j + 1, s, by simpa using hj, ?_, hlt, ?_, ?_⟩
        · rw [hstep, heq]; push_cast; congr 1; ring
        · intro k t hk
          cases k with
          | zero => simp at hk; subst hk; exact le_of_lt (lt_of_lt_of_le hlt (not_lt.mp hm))
          | succ k => simp at hk; exact hmin k t hk
        · intro k t hkj hk
          cases k with
          | zero => simp at hk; subst hk; exact lt_of_lt_of_le hlt (not_lt.mp hm)
          | succ k => simp at hk; exact hfirst k t (by omega) hk

/-- On a non-empty size list the loop started from `(-1, INT_MAX)` ends on
the first entry of least `sizeMatch`. -/
theorem sizeLoop_init (width height : Int) (l : List XRRScreenSize) (hl : l ≠ []) :
    ∃ (j : Nat) (s : XRRScreenSize), l[j]? = some s ∧
      sizeLoop width height l 0 (-1, INT_MAX) = ((j : Int), sizeMatch width height s) ∧
      (∀ (k : Nat) (t : XRRScreenSize), l[k]? = some t →
        sizeMatch width height s ≤ sizeMatch width height t) ∧
      (∀ (k : Nat) (t : XRRScreenSize), k < j → l[k]? = some t →
        sizeMatch width height s < sizeMatch width height t) := by
  rcases sizeLoop_spec width height l 0 (-1) INT_MAX with ⟨_, hall⟩ | ⟨j, s, hj, heq, _, hmin, hfirst⟩
  · cases l with
    | nil => exact absurd rfl hl
    | cons a rest =>
      have := hall a (List.mem_cons_self a rest)
      have := sizeMatch_lt_INT_MAX width height a
      omega
  · exact ⟨j, s, hj, by simpa using heq, hmin, hfirst⟩

theorem arrayAt_of_getElem? {α : Type} [Inhabited α] (l : List α) (j : Nat) (a : α)
    (h : l[j]? = some a) : arrayAt l (j : Int) = a := by
  simp [arrayAt, List.getD, h]

/-- With the extension available and a non-empty size list, the function
returns the first entry of least `sizeMatch`, reports its size and resolves
the rate against the rate list of that entry. -/
theorem closest_spec (lib : GLFWlibrary) (screen width height rate : Int)
    (hav : lib.X11.XRandR.available = true)
    (hne : (lib.X11.display.screens screen).sizes ≠ []) :
    ∃ (j : Nat) (s : XRRScreenSize),
      (lib.X11.display.screens screen).sizes[j]? = some s ∧
      _glfwGetClosestVideoMode lib screen width height rate =
        { index := (j : Int), width := s.width, height := s.height,
          rate := resolvedRate (lib.X11.display.screens screen) (j : Int) rate } ∧
      (∀ (k : Nat) (t : XRRScreenSize), (lib.X11.display.screens screen).sizes[k]? = some t →
        sizeMatch width height s ≤ sizeMatch width height t) ∧
      (∀ (k : Nat) (t : XRRScreenSize), k < j →
        (lib.X11.display.screens screen).sizes[k]? = some t →
        sizeMatch width height s < sizeMatch width height t) := by
  obtain ⟨j, s, hj, heq, hmin, hfirst⟩ :=
    sizeLoop_init width height (lib.X11.display.screens screen).sizes hne
  refine ⟨j, s, hj, ?_, hmin, hfirst⟩
  have hjne : ((j : Int) ≠ -1) := by omega
  have hat := arrayAt_of_getElem? _ j s hj
  unfold _glfwGetClosestVideoMode resolvedRate
  simp only [hav, heq, if_true, hjne, ne_eq, not_false_eq_true, hat]

/-! ## Squared distance without wrap-around -/

theorem abs_lt_of_sq_le (a : Int) (h : a * a ≤ 2147483647) : -46341 < a ∧ a < 46341 := by
  constructor <;> nlinarith

/-- When the squared distance fits a C `int`, the 32-bit computation yields
it exactly. -/
theorem sizeMatch_eq_sqDist (width height : Int) (s : XRRScreenSize)
    (h : sqDist width height s ≤ INT_MAX) : sizeMatch width height s = sqDist width height s := by
  unfold sqDist INT_MAX at h
  have ha0 : 0 ≤ (width - s.width) * (width - s.width) := mul_self_nonneg _
  have hb0 : 0 ≤ (height - s.height) * (height - s.height) := mul_self_nonneg _
  have ha := abs_lt_of_sq_le (width - s.width) (by omega)
  have hb := abs_lt_of_sq_le (height - s.height) (by omega)
  unfold sizeMatch sqDist
  simp only []
  rw [wrap32_of_range (width - s.width) (by omega) (by omega),
    wrap32_of_range (height - s.height) (by omega) (by omega),
    wrap32_of_range ((width - s.width) * (width - s.width)) (by omega) (by omega),
    wrap32_of_range ((height - s.height) * (height - s.height)) (by omega) (by omega),
    wrap32_of_range _ (by omega) (by omega)]

/-! ## Claims on bpp2rgb and on the size search -/

/-- C1: for every bpp among 15, 16, 24, 30 and 32 the channel widths
`(r, g, b)` of `bpp2rgb` add up to bpp (to 24 for bpp = 32) and `g ≥ r`. -/
theorem C1_bpp2rgb_sum_and_green (bpp : Int) (h : bpp ∈ [15, 16, 24, 30, 32]) :
    (bpp2rgb bpp).1 + (bpp2rgb bpp).2.1 + (bpp2rgb bpp).2.2 = (if bpp = 32 then 24 else bpp) ∧
      (bpp2rgb bpp).2.1 ≥ (bpp2rgb bpp).1 := by
  simp only [List.mem_cons, List.mem_singleton, List.not_mem_nil, or_false] at h
  rcases h with rfl | rfl | rfl | rfl | rfl <;> decide

theorem C1_bpp2rgb_sum_and_green_witness :
    (16 : Int) ∈ [15, 16, 24, 30, 32] ∧
      ((bpp2rgb 16).1 + (bpp2rgb 16).2.1 + (bpp2rgb 16).2.2 = (if (16 : Int) = 32 then 24 else 16) ∧
        (bpp2rgb 16).2.1 ≥ (bpp2rgb 16).1) :=
  ⟨by decide, C1_bpp2rgb_sum_and_green 16 (by decide)⟩

/-- C10: with the extension available and a non-empty size list, for every
desired width and height the 32-bit distance of the first entry differs from
`INT_MAX`, and the returned index `i` satisfies `0 ≤ i < sizecount` with
`*width` and `*height` set to the size of entry `i`: the fall-back to the
desktop resolution is not taken. -/
theorem C10_closest_selects_an_entry (lib : GLFWlibrary) (screen width height rate : Int)
    (hav : lib.X11.XRandR.available = true)
    (hne : (lib.X11.display.screens screen).sizes ≠ []) :
    sizeMatch width height ((lib.X11.display.screens screen).sizes.head hne) ≠ INT_MAX ∧
    0 ≤ (_glfwGetClosestVideoMode lib screen width height rate).index ∧
    (_glfwGetClosestVideoMode lib screen width height rate).index <
      ((lib.X11.display.screens screen).sizes.length : Int) ∧
    (_glfwGetClosestVideoMode lib screen width height rate).width =
      (arrayAt (lib.X11.display.screens screen).sizes
        (_glfwGetClosestVideoMode lib screen width height rate).index).width ∧
    (_glfwGetClosestVideoMode lib screen width height rate).height =
      (arrayAt (lib.X11.display.screens screen).sizes
        (_glfwGetClosestVideoMode lib screen width height rate).index).height := by
  obtain ⟨j, s, hj, heq, _, _⟩ := closest_spec lib screen width height rate hav hne
  have hlen : j < (lib.X11.display.screens screen).sizes.length := by
    by_contra hc
    rw [List.getElem?_eq_none (by omega)] at hj
    exact absurd hj (by simp)
  have hat := arrayAt_of_getElem? _ j s hj
  refine ⟨ne_of_lt (sizeMatch_lt_INT_MAX _ _ _), ?_⟩
  rw [heq]
  dsimp only
  rw [hat]
  exact ⟨by omega, by exact_mod_cast hlen, rfl, rfl⟩

theorem C10_closest_selects_an_entry_witness :
    sampleLib.X11.XRandR.available = true ∧
    (sampleLib.X11.display.screens 0).sizes ≠ [] ∧
    0 ≤ (_glfwGetClosestVideoMode sampleLib 0 100000 100000 60).index ∧
    (_glfwGetClosestVideoMode sampleLib 0 100000 100000 60).index <
      ((sampleLib.X11.display.screens 0).sizes.length : Int) :=
  ⟨rfl, by decide,
    (C10_closest_selects_an_entry sampleLib 0 100000 100000 60 rfl (by decide)).2.1,
    (C10_closest_selects_an_entry sampleLib 0 100000 100000 60 rfl (by decide)).2.2.1⟩

/-- C2, evaluated where the 32-bit distance wraps: the size list holds the
requested 50000x600 at index 1, and the function returns index 0 and reports
800x600. -/
theorem C2_exact_size_missed_on_wrap :
    (wideScreen.sizes.map (fun s => (s.width, s.height))) = [(800, 600), (50000, 600)] ∧
    sizeMatch 50000 600 ⟨800, 600, 270, 203⟩ = -1874327296 ∧
    _glfwGetClosestVideoMode (libWithScreen wideScreen) 0 50000 600 0 =
      { index := 0, width := 800, height := 600, rate := 0 } := by
  decide

/-- C3, evaluated where the 32-bit distance wraps: wanting 47200x600 from the
sizes 800x600 and 1024x768, entry 0 (squared distance 2152960000, computed as
-2142007296) is returned although entry 1 (squared distance 2132251200) is
closer. -/
theorem C3_farther_size_chosen_on_wrap :
    (twoSizeScreen.sizes.map (fun s => (s.width, s.height))) = [(800, 600), (1024, 768)] ∧
    sqDist 47200 600 ⟨800, 600, 270, 203⟩ = 2152960000 ∧
    sqDist 47200 600 ⟨1024, 768, 270, 203⟩ = 2132251200 ∧
    sizeMatch 47200 600 ⟨800, 600, 270, 203⟩ = -2142007296 ∧
    _glfwGetClosestVideoMode (libWithScreen twoSizeScreen) 0 47200 600 0 =
      { index := 0, width := 800, height := 600, rate := 0 } := by
  decide

/-- Without wrap-around (every squared distance of the list fits a C `int`),
the returned index minimises the squared Euclidean distance over the list, is
the first index of that distance, and the reported size is that entry. -/
theorem closest_minimises_of_no_wrap (lib : GLFWlibrary) (screen width height rate : Int)
    (hav : lib.X11.XRandR.available = true)
    (hne : (lib.X11.display.screens screen).sizes ≠ [])
    (hfit : ∀ s ∈ (lib.X11.display.screens screen).sizes, sqDist width height s ≤ INT_MAX) :
    ∃ (j : Nat) (s : XRRScreenSize),
      (lib.X11.display.screens screen).sizes[j]? = some s ∧
      (_glfwGetClosestVideoMode lib screen width height rate).index = (j : Int) ∧
      (_glfwGetClosestVideoMode lib screen width height rate).width = s.width ∧
      (_glfwGetClosestVideoMode lib screen width height rate).height = s.height ∧
      (∀ (k : Nat) (t : XRRScreenSize), (lib.X11.display.screens screen).sizes[k]? = some t →
        sqDist width height s ≤ sqDist width height t) ∧
      (∀ (k : Nat) (t : XRRScreenSize), k < j →
        (lib.X11.display.screens screen).sizes[k]? = some t →
        sqDist width height s < sqDist width height t) := by
  obtain ⟨j, s, hj, heq, hmin, hfirst⟩ := closest_spec lib screen width height rate hav hne
  refine ⟨j, s, hj, by rw [heq], by rw [heq], by rw [heq], ?_, ?_⟩
  · intro k t hk
    have := hmin k t hk
    rwa [sizeMatch_eq_sqDist _ _ s (hfit s (List.getElem?_mem hj)),
      sizeMatch_eq_sqDist _ _ t (hfit t (List.getElem?_mem hk))] at this
  · intro k t hkj hk
    have := hfirst k t hkj hk
    rwa [sizeMatch_eq_sqDist _ _ s (hfit s (List.getElem?_mem hj)),
      sizeMatch_eq_sqDist _ _ t (hfit t (List.getElem?_mem hk))] at this

/-- Without wrap-around, a size list that holds the requested size makes the
function return an entry of exactly that size and leave `*width` and
`*height` at the requested values. -/
theorem closest_exact_of_no_wrap (lib : GLFWlibrary) (screen width height rate : Int)
    (hav : lib.X11.XRandR.available = true)
    (hfit : ∀ s ∈ (lib.X11.display.screens screen).sizes, sqDist width height s ≤ INT_MAX)
    (hex : ∃ s ∈ (lib.X11.display.screens screen).sizes, s.width = width ∧ s.height = height) :
    (arrayAt (lib.X11.display.screens screen).sizes
      (_glfwGetClosestVideoMode lib screen width height rate).index).width = width ∧
    (arrayAt (lib.X11.display.screens screen).sizes
      (_glfwGetClosestVideoMode lib screen width height rate).index).height = height ∧
    (_glfwGetClosestVideoMode lib screen width height rate).width = width ∧
    (_glfwGetClosestVideoMode lib screen width height rate).height = height := by
  obtain ⟨e, he, hew, heh⟩ := hex
  have hne : (lib.X11.display.screens screen).sizes ≠ [] := List.ne_nil_of_mem he
  obtain ⟨j, s, hj, hi, hw, hh, hmin, _⟩ :=
    closest_minimises_of_no_wrap lib screen width height rate hav hne hfit
  obtain ⟨k, hk⟩ := List.getElem?_of_mem he
  have h0 : sqDist width height e = 0 := by simp [sqDist, hew, heh]
  have hle := hmin k e hk
  rw [h0] at hle
  have ha0 : 0 ≤ (width - s.width) * (width - s.width) := mul_self_nonneg _
  have hb0 : 0 ≤ (height - s.height) * (height - s.height) := mul_self_nonneg _
  unfold sqDist at hle
  have ha : (width - s.width) * (width - s.width) = 0 := by omega
  have hb : (height - s.height) * (height - s.height) = 0 := by omega
  have hsw : s.width = width := by
    have := mul_self_eq_zero.mp ha; omega
  have hsh : s.height = height := by
    have := mul_self_eq_zero.mp hb; omega
  rw [hi, arrayAt_of_getElem? _ j s hj, hw, hh]
  exact ⟨hsw, hsh, hsw, hsh⟩

/-! ## The rate loop selects the first minimum of `rateMatch` -/

/-- For a non-negative `short` rate and a positive requested rate the 32-bit
computation of the rate loop yields the absolute difference. -/
theorem rateMatch_eq_abs (rate r : Int) (h0 : 0 ≤ r) (h1 : r ≤ 32767) (hr0 : 0 < rate)
    (hr1 : rate ≤ INT_MAX) : rateMatch rate r = |r - rate| := by
  unfold INT_MAX at hr1
  unfold rateMatch abs32
  rw [wrap32_of_range (r - rate) (by omega) (by omega)]
  by_cases hneg : r - rate < 0
  · rw [if_pos hneg, wrap32_of_range _ (by omega) (by omega), abs_of_neg hneg]
  · rw [if_neg hneg, abs_of_nonneg (by omega)]

/-- Outcome of the rate loop started in state `(br, bm)`: either no entry
beats `bm` and the state is unchanged, or the state holds the first entry of
least `rateMatch`. -/
theorem rateLoop_spec (rate : Int) (l : List Int) :
    ∀ (br bm : Int),
      (rateLoop rate l (br, bm) = (br, bm) ∧ ∀ r ∈ l, bm ≤ rateMatch rate r) ∨
      (∃ (j : Nat) (r : Int), l[j]? = some r ∧
        rateLoop rate l (br, bm) = (r, rateMatch rate r) ∧
        rateMatch rate r < bm ∧
        (∀ (k : Nat) (t : Int), l[k]? = some t → rateMatch rate r ≤ rateMatch rate t) ∧
        (∀ (k : Nat) (t : Int), k < j → l[k]? = some t →
          rateMatch rate r < rateMatch rate t)) := by
  induction l with
  | nil => intro br bm; left; simp [rateLoop]
  | cons a rest ih =>
    intro br bm
    by_cases hm : rateMatch rate a < bm
    · have hstep : rateLoop rate (a :: rest) (br, bm) =
          rateLoop rate rest (a, rateMatch rate a) := by
        simp [rateLoop, hm]
      rcases ih a (rateMatch rate a) with ⟨heq, hall⟩ | ⟨j, r, hj, heq, hlt, hmin, hfirst⟩
      · right
        refine ⟨0, a, by simp, by rw [hstep, heq], hm, ?_, ?_⟩
        · intro k t hk
          cases k with
          | zero => simp at hk; subst hk; exact le_refl _
          | succ k => simp at hk; exact hall t (List.getElem?_mem hk)
        · intro k t hk; omega
      · right
        refine ⟨j + 1, r, by simpa using hj, by rw [hstep, heq], lt_trans hlt hm, ?_, ?_⟩
        · intro k t hk
          cases k with
          | zero => simp at hk; subst hk; exact le_of_lt hlt
          | succ k => simp at hk; exact hmin k t hk
        · intro k t hkj hk
          cases k with
          | zero => simp at hk; subst hk; exact hlt
          | succ k => simp at hk; exact hfirst k t (by omega) hk
    · have hstep : rateLoop rate (a :: rest) (br, bm) = rateLoop rate rest (br, bm) := by
        simp [rateLoop, hm]
      rcases ih br bm with ⟨heq, hall⟩ | ⟨j, r, hj, heq, hlt, hmin, hfirst⟩
      · left
        refine ⟨by rw [hstep, heq], ?_⟩
        intro t ht
        rcases List.mem_cons.mp ht with h | h
        · subst h; exact not_lt.mp hm
        · exact hall t h
      · right
        refine ⟨j + 1, r, by simpa using hj, by rw [hstep, heq], hlt, ?_, ?_⟩
        · intro k t hk
          cases k with
          | zero => simp at hk; subst hk; exact le_of_lt (lt_of_lt_of_le hlt (not_lt.mp hm))
          | succ k => simp at hk; exact hmin k t hk
        · intro k t hkj hk
          cases k with
          | zero => simp at hk; subst hk; exact lt_of_lt_of_le hlt (not_lt.mp hm)
          | succ k => simp at hk; exact hfirst k t (by omega) hk

/-- Rate resolution on a non-empty list of non-negative `short` rates, for a
positive requested rate below `INT_MAX`: the resolved rate is the first entry
closest to the request. -/
theorem resolvedRate_first_closest (scr : XScreen) (j rate : Int) (hr0 : 0 < rate)
    (hr1 : rate < INT_MAX) (hne : XRRConfigRates scr j ≠ [])
    (hshort : ∀ r ∈ XRRConfigRates scr j, 0 ≤ r ∧ r ≤ 32767) :
    FirstClosestRate (XRRConfigRates scr j) rate (resolvedRate scr j rate) := by
  have hbound : ∀ r ∈ XRRConfigRates scr j, rateMatch rate r < INT_MAX := by
    intro r hr
    rw [rateMatch_eq_abs rate r (hshort r hr).1 (hshort r hr).2 hr0 (le_of_lt hr1)]
    have := (hshort r hr).1
    have := (hshort r hr).2
    unfold INT_MAX at hr1 ⊢
    rw [abs_lt]; constructor <;> omega
  rcases rateLoop_spec rate (XRRConfigRates scr j) (-1) INT_MAX with
    ⟨_, hall⟩ | ⟨i, r, hi, heq, _, hmin, hfirst⟩
  · cases hl : XRRConfigRates scr j with
    | nil => exact absurd hl hne
    | cons a rest =>
      have ha : a ∈ XRRConfigRates scr j := by rw [hl]; exact List.mem_cons_self a rest
      have := hall a ha
      have := hbound a ha
      omega
  · have hrmem := List.getElem?_mem hi
    have hrne : r ≠ -1 := by have := (hshort r hrmem).1; omega
    have hres : resolvedRate scr j rate = r := by
      unfold resolvedRate
      simp only [heq, gt_iff_lt, hr0, if_true, ne_eq, hrne, not_false_eq_true]
    rw [hres]
    refine ⟨i, hi, ?_, ?_⟩
    · intro k t hk
      have htm := List.getElem?_mem hk
      have := hmin k t hk
      rwa [rateMatch_eq_abs rate r (hshort r hrmem).1 (hshort r hrmem).2 hr0 (le_of_lt hr1),
        rateMatch_eq_abs rate t (hshort t htm).1 (hshort t htm).2 hr0 (le_of_lt hr1)] at this
    · intro k t hki hk
      have htm := List.getElem?_mem hk
      have := hfirst k t hki hk
      rwa [rateMatch_eq_abs rate r (hshort r hrmem).1 (hshort r hrmem).2 hr0 (le_of_lt hr1),
        rateMatch_eq_abs rate t (hshort t htm).1 (hshort t htm).2 hr0 (le_of_lt hr1)] at this

/-! ## Claim on the rate resolution -/

/-- C4 as stated fails where the chosen size reports no rate: wanting 60 Hz
on a screen without rates, the function leaves `*rate` at 60, which is no
entry of the (empty) rate list. -/
theorem C4_no_rate_listed :
    0 < (60 : Int) ∧
    (_glfwGetClosestVideoMode (libWithScreen noRateScreen) 0 800 600 60).index = 1 ∧
    XRRConfigRates noRateScreen 1 = [] ∧
    (_glfwGetClosestVideoMode (libWithScreen noRateScreen) 0 800 600 60).rate = 60 ∧
    ¬ FirstClosestRate (XRRConfigRates noRateScreen 1) 60
        (_glfwGetClosestVideoMode (libWithScreen noRateScreen) 0 800 600 60).rate := by
  refine ⟨by decide, by decide, by decide, by decide, ?_⟩
  rintro ⟨j, hj, _⟩
  have hnil : XRRConfigRates noRateScreen 1 = [] := by decide
  rw [hnil] at hj
  simp at hj

/-- C4, amended: with the extension available and a non-empty size list (a
size is chosen), `*rate` is left unchanged when it is not positive on entry
and when the chosen size reports no rate; when it is positive and below
`INT_MAX` and the chosen size reports a non-empty list of non-negative
`short` rates, the value written back is the entry of that list closest to
the request in absolute difference, the first such entry in list order. -/
theorem C4_rate_resolution (lib : GLFWlibrary) (screen width height rate : Int)
    (hav : lib.X11.XRandR.available = true)
    (hne : (lib.X11.display.screens screen).sizes ≠ []) :
    (rate ≤ 0 → (_glfwGetClosestVideoMode lib screen width height rate).rate = rate) ∧
    (0 < rate →
      XRRConfigRates (lib.X11.display.screens screen)
        (_glfwGetClosestVideoMode lib screen width height rate).index = [] →
      (_glfwGetClosestVideoMode lib screen width height rate).rate = rate) ∧
    (0 < rate → rate < INT_MAX →
      XRRConfigRates (lib.X11.display.screens screen)
        (_glfwGetClosestVideoMode lib screen width height rate).index ≠ [] →
      (∀ r ∈ XRRConfigRates (lib.X11.display.screens screen)
        (_glfwGetClosestVideoMode lib screen width height rate).index, 0 ≤ r ∧ r ≤ 32767) →
      FirstClosestRate
        (XRRConfigRates (lib.X11.display.screens screen)
          (_glfwGetClosestVideoMode lib screen width height rate).index)
        rate (_glfwGetClosestVideoMode lib screen width height rate).rate) := by
  obtain ⟨j, s, _, heq, _, _⟩ := closest_spec lib screen width height rate hav hne
  rw [heq]
  dsimp only
  refine ⟨?_, ?_, ?_⟩
  · intro h
    unfold resolvedRate
    rw [if_neg (by omega)]
  · intro _ hnil
    unfold resolvedRate
    rw [hnil]
    simp [rateLoop]
  · intro h0 h1 hl hshort
    exact resolvedRate_first_closest _ _ _ h0 h1 hl hshort

theorem C4_rate_resolution_witness :
    sampleLib.X11.XRandR.available = true ∧
    (sampleLib.X11.display.screens 0).sizes ≠ [] ∧
    (0 : Int) < 70 ∧ (70 : Int) < INT_MAX ∧
    XRRConfigRates (sampleLib.X11.display.screens 0)
      (_glfwGetClosestVideoMode sampleLib 0 800 600 70).index = [60, 72, 85] ∧
    (_glfwGetClosestVideoMode sampleLib 0 800 600 70).rate = 72 ∧
    FirstClosestRate
      (XRRConfigRates (sampleLib.X11.display.screens 0)
        (_glfwGetClosestVideoMode sampleLib 0 800 600 70).index)
      70 (_glfwGetClosestVideoMode sampleLib 0 800 600 70).rate :=
  ⟨rfl, by decide, by decide, by decide, by decide, by decide,
    (C4_rate_resolution sampleLib 0 800 600 70 rfl (by decide)).2.2
      (by decide) (by decide) (by decide) (by decide)⟩

/-- The two sentinels of the rate loop collide with values the types admit:
wanting `INT_MAX` Hz when the only rate is 0, and wanting 1 Hz when the
closest rate is -1, the function leaves `*rate` as it was. -/
theorem rate_sentinel_collisions :
    (_glfwGetClosestVideoMode (libWithScreen zeroRateScreen) 0 800 600 2147483647).rate =
      2147483647 ∧
    (_glfwGetClosestVideoMode (libWithScreen minusOneRateScreen) 0 800 600 1).rate = 1 := by
  decide

/-! ## Mode switching as a state machine -/

theorem accepts_default_rate (s : XScreen) (size_index rotation : Int) :
    s.accepts size_index rotation 0 =
      (decide (0 ≤ size_index) && decide (size_index < s.sizes.length) &&
        s.rotations.contains rotation) := by
  simp [XScreen.accepts]

/-- A configuration request changes neither the size list nor the supported
rotations of the screen it names. -/
theorem setConfig_keeps_lists (dpy : Display) (screen size_index rotation rate : Int) :
    ((XRRSetScreenConfigAndRate dpy screen size_index rotation rate).screens screen).sizes =
        (dpy.screens screen).sizes ∧
    ((XRRSetScreenConfigAndRate dpy screen size_index rotation rate).screens screen).rotations =
        (dpy.screens screen).rotations := by
  unfold XRRSetScreenConfigAndRate
  by_cases h : (dpy.screens screen).accepts size_index rotation rate = true
  · simp [h, XScreen.configure]
  · simp [h]

/-- An accepted request with the default rate makes the requested size index
and rotation current. -/
theorem setConfig_accepted (dpy : Display) (screen size_index rotation : Int)
    (h : (dpy.screens screen).accepts size_index rotation 0 = true) :
    ((XRRSetScreenConfig dpy screen size_index rotation).screens screen).sizeID = size_index ∧
    ((XRRSetScreenConfig dpy screen size_index rotation).screens screen).rotation = rotation := by
  unfold XRRSetScreenConfig XRRSetScreenConfigAndRate
  simp [h, XScreen.configure]

/-- The first set-mode after a restore records the current configuration and
display size and raises the flag. -/
theorem setMode_first (lib : GLFWlibrary) (screen mode rate : Int)
    (hav : lib.X11.XRandR.available = true) (hclear : lib.X11.FS.modeChanged = false) :
    (_glfwSetVideoModeMODE lib screen mode rate).X11.XRandR.available = true ∧
    (_glfwSetVideoModeMODE lib screen mode rate).X11.FS =
      { modeChanged := true
        oldSizeID := (lib.X11.display.screens screen).sizeID
        oldRotation := (lib.X11.display.screens screen).rotation
        oldWidth := DisplayWidth lib.X11.display screen
        oldHeight := DisplayHeight lib.X11.display screen } ∧
    ((_glfwSetVideoModeMODE lib screen mode rate).X11.display.screens screen).sizes =
      (lib.X11.display.screens screen).sizes ∧
    ((_glfwSetVideoModeMODE lib screen mode rate).X11.display.screens screen).rotations =
      (lib.X11.display.screens screen).rotations := by
  unfold _glfwSetVideoModeMODE
  simp only [hav, hclear, if_true]
  refine ⟨trivial, by simp, ?_, ?_⟩
  · by_cases hr : rate > 0
    · simp only [hr, if_true]; exact (setConfig_keeps_lists _ _ _ _ _).1
    · simp only [hr, if_false]; exact (setConfig_keeps_lists _ _ _ _ _).1
  · by_cases hr : rate > 0
    · simp only [hr, if_true]; exact (setConfig_keeps_lists _ _ _ _ _).2
    · simp only [hr, if_false]; exact (setConfig_keeps_lists _ _ _ _ _).2

/-- A set-mode issued while the flag is raised keeps the saved mode. -/
theorem setMode_again (lib : GLFWlibrary) (screen mode rate : Int)
    (hav : lib.X11.XRandR.available = true) (hset : lib.X11.FS.modeChanged = true) :
    (_glfwSetVideoModeMODE lib screen mode rate).X11.XRandR.available = true ∧
    (_glfwSetVideoModeMODE lib screen mode rate).X11.FS = lib.X11.FS ∧
    ((_glfwSetVideoModeMODE lib screen mode rate).X11.display.screens screen).sizes =
      (lib.X11.display.screens screen).sizes ∧
    ((_glfwSetVideoModeMODE lib screen mode rate).X11.display.screens screen).rotations =
      (lib.X11.display.screens screen).rotations := by
  unfold _glfwSetVideoModeMODE
  simp only [hav, hset, if_true]
  refine ⟨trivial, by simp, ?_, ?_⟩
  · by_cases hr : rate > 0
    · simp only [hr, if_true]; exact (setConfig_keeps_lists _ _ _ _ _).1
    · simp only [hr, if_false]; exact (setConfig_keeps_lists _ _ _ _ _).1
  · by_cases hr : rate > 0
    · simp only [hr, if_true]; exact (setConfig_keeps_lists _ _ _ _ _).2
    · simp only [hr, if_false]; exact (setConfig_keeps_lists _ _ _ _ _).2

/-- Any sequence of set-modes issued while the flag is raised keeps the saved
mode, the size list and the supported rotations. -/
theorem setModes_again (screen : Int) (calls : List (Int × Int)) :
    ∀ lib : GLFWlibrary, lib.X11.XRandR.available = true → lib.X11.FS.modeChanged = true →
      (setModes lib screen calls).X11.XRandR.available = true ∧
      (setModes lib screen calls).X11.FS = lib.X11.FS ∧
      ((setModes lib screen calls).X11.display.screens screen).sizes =
        (lib.X11.display.screens screen).sizes ∧
      ((setModes lib screen calls).X11.display.screens screen).rotations =
        (lib.X11.display.screens screen).rotations := by
  induction calls with
  | nil => intro lib hav _; exact ⟨hav, rfl, rfl, rfl⟩
  | cons c rest ih =>
    intro lib hav hset
    obtain ⟨mode, rate⟩ := c
    obtain ⟨h1, h2, h3, h4⟩ := setMode_again lib screen mode rate hav hset
    obtain ⟨k1, k2, k3, k4⟩ := ih (_glfwSetVideoModeMODE lib screen mode rate) h1 (by rw [h2]; exact hset)
    simp only [setModes]
    exact ⟨k1, by rw [k2, h2], by rw [k3, h3], by rw [k4, h4]⟩

/-- After a non-empty sequence of set-modes started with the flag clear and
the extension available, the saved mode is the one current before the first
call and the flag is raised. -/
theorem setModes_from_clear (lib : GLFWlibrary) (screen : Int) (calls : List (Int × Int))
    (hav : lib.X11.XRandR.available = true) (hclear : lib.X11.FS.modeChanged = false)
    (hne : calls ≠ []) :
    (setModes lib screen calls).X11.XRandR.available = true ∧
    (setModes lib screen calls).X11.FS =
      { modeChanged := true
        oldSizeID := (lib.X11.display.screens screen).sizeID
        oldRotation := (lib.X11.display.screens screen).rotation
        oldWidth := DisplayWidth lib.X11.display screen
        oldHeight := DisplayHeight lib.X11.display screen } ∧
    ((setModes lib screen calls).X11.display.screens screen).sizes =
      (lib.X11.display.screens screen).sizes ∧
    ((setModes lib screen calls).X11.display.screens screen).rotations =
      (lib.X11.display.screens screen).rotations := by
  cases calls with
  | nil => exact absurd rfl hne
  | cons c rest =>
    obtain ⟨mode, rate⟩ := c
    obtain ⟨h1, h2, h3, h4⟩ := setMode_first lib screen mode rate hav hclear
    obtain ⟨k1, k2, k3, k4⟩ :=
      setModes_again screen rest (_glfwSetVideoModeMODE lib screen mode rate) h1 (by rw [h2])
    simp only [setModes]
    exact ⟨k1, by rw [k2, h2], by rw [k3, h3], by rw [k4, h4]⟩

/-- Without the extension a sequence of set-modes leaves the state as it is. -/
theorem setModes_unavailable (screen : Int) (calls : List (Int × Int)) (lib : GLFWlibrary)
    (hav : lib.X11.XRandR.available = false) : setModes lib screen calls = lib := by
  induction calls with
  | nil => rfl
  | cons c rest ih =>
    obtain ⟨mode, rate⟩ := c
    have h : _glfwSetVideoModeMODE lib screen mode rate = lib := by
      unfold _glfwSetVideoModeMODE; simp [hav]
    simp only [setModes, h, ih]

/-! ## Claims on set-mode, restore-mode and the desktop mode -/

/-- C5: starting with the modeChanged flag clear, after any non-empty sequence
of set-mode calls (any mode index, any rate) on a screen followed by one
restore-mode, the size index and rotation of the screen are those current
before the first set-mode, and the flag is clear again. The screen is taken
well-formed: its current configuration is one the server accepts. -/
theorem C5_set_restore_round_trip (lib : GLFWlibrary) (screen : Int)
    (calls : List (Int × Int)) (hclear : lib.X11.FS.modeChanged = false) (hne : calls ≠ [])
    (hwf : (lib.X11.display.screens screen).WellFormed) :
    ((_glfwRestoreVideoMode (setModes lib screen calls) screen).X11.display.screens screen).sizeID =
      (lib.X11.display.screens screen).sizeID ∧
    ((_glfwRestoreVideoMode (setModes lib screen calls) screen).X11.display.screens screen).rotation =
      (lib.X11.display.screens screen).rotation ∧
    (_glfwRestoreVideoMode (setModes lib screen calls) screen).X11.FS.modeChanged = false := by
  by_cases hav : lib.X11.XRandR.available = true
  · obtain ⟨k1, k2, k3, k4⟩ := setModes_from_clear lib screen calls hav hclear hne
    have hm : (setModes lib screen calls).X11.FS.modeChanged = true := by rw [k2]
    have hs : (setModes lib screen calls).X11.FS.oldSizeID =
        (lib.X11.display.screens screen).sizeID := by rw [k2]
    have hr : (setModes lib screen calls).X11.FS.oldRotation =
        (lib.X11.display.screens screen).rotation := by rw [k2]
    have hacc : ((setModes lib screen calls).X11.display.screens screen).accepts
        (lib.X11.display.screens screen).sizeID (lib.X11.display.screens screen).rotation 0 =
        true := by
      rw [accepts_default_rate, k3, k4, ← accepts_default_rate]; exact hwf
    obtain ⟨a1, a2⟩ := setConfig_accepted _ _ _ _ hacc
    unfold _glfwRestoreVideoMode
    simp only [hm, k1, hs, hr, if_true]
    exact ⟨a1, a2, trivial⟩
  · have hav2 : lib.X11.XRandR.available = false := by simpa using hav
    rw [setModes_unavailable screen calls lib hav2]
    unfold _glfwRestoreVideoMode
    simp [hclear]

theorem C5_set_restore_round_trip_witness :
    sampleLib.X11.FS.modeChanged = false ∧
    [((2 : Int), (60 : Int)), (1, 0), (7, 60)] ≠ [] ∧
    (sampleLib.X11.display.screens 0).WellFormed ∧
    ((setModes sampleLib 0 [(2, 60), (1, 0), (7, 60)]).X11.display.screens 0).sizeID = 1 ∧
    ((_glfwRestoreVideoMode (setModes sampleLib 0 [(2, 60), (1, 0), (7, 60)]) 0).X11.display.screens
      0).sizeID = (sampleLib.X11.display.screens 0).sizeID :=
  ⟨rfl, by decide, by unfold XScreen.WellFormed; decide, by decide,
    (C5_set_restore_round_trip sampleLib 0 [(2, 60), (1, 0), (7, 60)] rfl (by decide)
      (by unfold XScreen.WellFormed; decide)).1⟩

/-- C6: restore-mode called with the modeChanged flag clear returns the state
it was given (desktop state, saved original mode, flag and the journal of
issued requests: no mode switch is issued); and restore-mode is idempotent,
restoring twice equals restoring once for every state. -/
theorem C6_restore_noop_and_idempotent (lib : GLFWlibrary) (screen : Int) :
    (lib.X11.FS.modeChanged = false → _glfwRestoreVideoMode lib screen = lib) ∧
    _glfwRestoreVideoMode (_glfwRestoreVideoMode lib screen) screen =
      _glfwRestoreVideoMode lib screen := by
  constructor
  · intro h
    unfold _glfwRestoreVideoMode
    simp [h]
  · by_cases h : lib.X11.FS.modeChanged = true
    · have hc : (_glfwRestoreVideoMode lib screen).X11.FS.modeChanged = false := by
        unfold _glfwRestoreVideoMode
        simp [h]
      generalize _glfwRestoreVideoMode lib screen = lib2 at hc
      unfold _glfwRestoreVideoMode
      simp [hc]
    · have hc : lib.X11.FS.modeChanged = false := by simpa using h
      have : _glfwRestoreVideoMode lib screen = lib := by
        unfold _glfwRestoreVideoMode
        simp [hc]
      rw [this, this]

theorem C6_restore_noop_and_idempotent_witness :
    sampleLib.X11.FS.modeChanged = false ∧ _glfwRestoreVideoMode sampleLib 0 = sampleLib :=
  ⟨rfl, (C6_restore_noop_and_idempotent sampleLib 0).1 rfl⟩

/-- C9: while a fullscreen switch is active (after one or more set-mode calls
with the extension available, started with the flag clear, and before
restore-mode) get-desktop-mode reports as width and height the display size
current before the first set-mode, and as redBits, greenBits and blueBits
the `bpp2rgb` split of the default depth. -/
theorem C9_desktop_mode_during_fullscreen (lib : GLFWlibrary) (screen : Int)
    (calls : List (Int × Int)) (mode : GLFWvidmode)
    (hav : lib.X11.XRandR.available = true) (hclear : lib.X11.FS.modeChanged = false)
    (hne : calls ≠ []) :
    _glfwPlatformGetDesktopMode (setModes lib screen calls) mode =
      { width := DisplayWidth lib.X11.display screen
        height := DisplayHeight lib.X11.display screen
        redBits := (bpp2rgb (DefaultDepth (setModes lib screen calls).X11.display
          (setModes lib screen calls).X11.display.defaultScreen)).1
        greenBits := (bpp2rgb (DefaultDepth (setModes lib screen calls).X11.display
          (setModes lib screen calls).X11.display.defaultScreen)).2.1
        blueBits := (bpp2rgb (DefaultDepth (setModes lib screen calls).X11.display
          (setModes lib screen calls).X11.display.defaultScreen)).2.2 } := by
  obtain ⟨k1, k2, _, _⟩ := setModes_from_clear lib screen calls hav hclear hne
  have hm : (setModes lib screen calls).X11.FS.modeChanged = true := by rw [k2]
  have hw : (setModes lib screen calls).X11.FS.oldWidth = DisplayWidth lib.X11.display screen := by
    rw [k2]
  have hh : (setModes lib screen calls).X11.FS.oldHeight =
      DisplayHeight lib.X11.display screen := by rw [k2]
  unfold _glfwPlatformGetDesktopMode
  simp [k1, hm, hw, hh]

theorem C9_desktop_mode_during_fullscreen_witness :
    sampleLib.X11.XRandR.available = true ∧ sampleLib.X11.FS.modeChanged = false ∧
    [((2 : Int), (60 : Int))] ≠ [] ∧
    DisplayWidth (setModes sampleLib 0 [(2, 60)]).X11.display 0 = 640 ∧
    DisplayHeight (setModes sampleLib 0 [(2, 60)]).X11.display 0 = 480 ∧
    _glfwPlatformGetDesktopMode (setModes sampleLib 0 [(2, 60)]) default =
      { width := 1024, height := 768, redBits := 8, greenBits := 8, blueBits := 8 } :=
  ⟨rfl, rfl, by decide, by decide, by decide,
    (C9_desktop_mode_during_fullscreen sampleLib 0 [(2, 60)] default rfl rfl (by decide)).trans
      (by decide)⟩

/-! ## The permutation loops of the mode lister -/

/-- The inner loop never lowers `count`, never raises it above the larger of
`count` and `maxcount`, and writes no entry below `count` or from `maxcount`
on. -/
theorem permInner_spec (rgb maxcount : Int) (resarray : List _glfwResolution) :
    ∀ (list : Int → GLFWvidmode) (count : Int),
      count ≤ (permInner rgb maxcount resarray (list, count)).2 ∧
      (permInner rgb maxcount resarray (list, count)).2 ≤ max count maxcount ∧
      ∀ i : Int, (i < count ∨ maxcount ≤ i) →
        (permInner rgb maxcount resarray (list, count)).1 i = list i := by
  induction resarray with
  | nil => intro list count; simp [permInner]
  | cons res rest ih =>
    intro list count
    by_cases hc : count < maxcount
    · obtain ⟨h1, h2, h3⟩ := ih (Function.update list count (permEntry rgb res)) (count + 1)
      simp only [permInner, hc, if_true]
      refine ⟨by omega, ?_, ?_⟩
      · rw [max_eq_right (by omega)] at h2
        rw [max_eq_right (le_of_lt hc)]
        exact h2
      · intro i hi
        rw [h3 i (by omega), Function.update_noteq (by omega)]
    · simp [permInner, hc]

/-- The outer loop has the same bounds and frame as the inner loop. -/
theorem permOuter_spec (resarray : List _glfwResolution) (maxcount : Int)
    (rgbarray : List Int) :
    ∀ (list : Int → GLFWvidmode) (count : Int),
      count ≤ (permOuter resarray maxcount rgbarray (list, count)).2 ∧
      (permOuter resarray maxcount rgbarray (list, count)).2 ≤ max count maxcount ∧
      ∀ i : Int, (i < count ∨ maxcount ≤ i) →
        (permOuter resarray maxcount rgbarray (list, count)).1 i = list i := by
  induction rgbarray with
  | nil => intro list count; simp [permOuter]
  | cons rgb rest ih =>
    intro list count
    by_cases hc : count < maxcount
    · obtain ⟨a1, a2, a3⟩ := permInner_spec rgb maxcount resarray list count
      obtain ⟨h1, h2, h3⟩ := ih (permInner rgb maxcount resarray (list, count)).1
        (permInner rgb maxcount resarray (list, count)).2
      simp only [Prod.mk.eta] at h1 h2 h3
      simp only [permOuter, hc, if_true]
      rw [max_eq_right (le_of_lt hc)] at a2
      refine ⟨by omega, ?_, ?_⟩
      · rw [max_eq_right (by omega)] at h2
        rw [max_eq_right (le_of_lt hc)]
        exact h2
      · intro i hi
        rw [h3 i (by omega), a3 i hi]
    · simp [permOuter, hc]

/-! ## The resolution array -/

/-- The XF86VidMode branch appends a resolution only when no equal one is in
the array, so an array without duplicates stays without duplicates. -/
theorem buildResVidMode_nodup (modelist : List XF86VidModeModeInfo) :
    ∀ resarray : List _glfwResolution, resarray.Nodup →
      (buildResVidMode modelist resarray).Nodup := by
  induction modelist with
  | nil => intro resarray h; simpa [buildResVidMode] using h
  | cons m rest ih =>
    intro resarray h
    by_cases hl : List.findIdx (fun r => decide (m.hdisplay = r.width ∧ m.vdisplay = r.height))
        resarray ≥ resarray.length
    · have heq := le_antisymm (List.findIdx_le_length _) hl
      rw [List.findIdx_eq_length] at heq
      simp only [buildResVidMode, hl, if_true]
      apply ih
      rw [List.nodup_append]
      refine ⟨h, List.nodup_singleton _, ?_⟩
      intro x hx hx2
      rw [List.mem_singleton] at hx2
      have := heq x hx
      subst hx2
      simp at this
    · simp only [buildResVidMode, hl, if_false]
      exact ih resarray h

/-- In the XF86VidMode configuration, and whenever no extension fills the
array, the resolution array has no duplicate. -/
theorem buildResArray_nodup_unless_xrandr (build : Build) (lib : GLFWlibrary)
    (h : build ≠ Build.HAS_XRANDR ∨ lib.X11.XRandR.available = false) :
    (buildResArray build lib).Nodup := by
  unfold buildResArray
  cases build with
  | HAS_XRANDR =>
    rcases h with h | h
    · exact absurd rfl h
    · simp [h]
  | HAS_XF86VIDMODE =>
    by_cases hv : lib.X11.XF86VidMode.available = true
    · simp only [hv, if_true]
      exact buildResVidMode_nodup _ [] List.nodup_nil
    · simp [hv]
  | NONE => simp

/-! ## Claims on the mode lister -/

/-- C7 as stated fails for a negative `maxcount`: called with `maxcount = -1`
the function returns 0, which exceeds -1. -/
theorem C7_negative_maxcount :
    (_glfwPlatformGetVideoModes Build.HAS_XRANDR sampleLib (fun _ => default) (-1)).2 = 0 ∧
    ¬ ((_glfwPlatformGetVideoModes Build.HAS_XRANDR sampleLib (fun _ => default) (-1)).2 ≤ -1) := by
  decide

/-- C7, amended: for every `maxcount`, visuals and resolutions, in each build
configuration, the returned count is at least 0 and at most the larger of
`maxcount` and 0 (so it never exceeds a non-negative `maxcount`), and no entry
of the caller's list at an index `≥ maxcount` is written. -/
theorem C7_count_within_maxcount (build : Build) (lib : GLFWlibrary)
    (list : Int → GLFWvidmode) (maxcount : Int) :
    0 ≤ (_glfwPlatformGetVideoModes build lib list maxcount).2 ∧
    (_glfwPlatformGetVideoModes build lib list maxcount).2 ≤ max maxcount 0 ∧
    (0 ≤ maxcount → (_glfwPlatformGetVideoModes build lib list maxcount).2 ≤ maxcount) ∧
    ∀ i : Int, maxcount ≤ i → (_glfwPlatformGetVideoModes build lib list maxcount).1 i = list i := by
  unfold _glfwPlatformGetVideoModes
  cases hv : lib.X11.display.visuals with
  | none =>
    dsimp only
    exact ⟨le_refl _, le_max_right _ _, fun h => h, fun _ _ => rfl⟩
  | some vislist =>
    dsimp only
    obtain ⟨h1, h2, h3⟩ := permOuter_spec (buildResArray build lib) maxcount
      (buildRGBArray vislist []) list 0
    rw [max_comm] at h2
    refine ⟨h1, h2, ?_, fun i hi => h3 i (Or.inr hi)⟩
    intro h0
    rwa [max_eq_left h0] at h2

theorem C7_count_within_maxcount_witness :
    (0 : Int) ≤ 3 ∧
    (_glfwPlatformGetVideoModes Build.HAS_XRANDR sampleLib (fun _ => default) 3).2 = 3 ∧
    (_glfwPlatformGetVideoModes Build.HAS_XRANDR sampleLib (fun _ => default) 3).2 ≤ 3 ∧
    (_glfwPlatformGetVideoModes Build.HAS_XRANDR sampleLib (fun _ => default) 3).1 3 = default :=
  ⟨by decide, by decide,
    (C7_count_within_maxcount Build.HAS_XRANDR sampleLib (fun _ => default) 3).2.2.1 (by decide),
    (C7_count_within_maxcount Build.HAS_XRANDR sampleLib (fun _ => default) 3).2.2.2 3
      (by decide)⟩

/-- C8, evaluated in the XRandR configuration on a size list that holds
800x600 twice: the resolution array holds the pair twice, and the first two
returned entries, of one colour format, have the same width and height. -/
theorem C8_xrandr_duplicate_resolutions :
    buildResArray Build.HAS_XRANDR (libWithScreen dupScreen) = [⟨800, 600⟩, ⟨800, 600⟩] ∧
    ¬ (buildResArray Build.HAS_XRANDR (libWithScreen dupScreen)).Nodup ∧
    (_glfwPlatformGetVideoModes Build.HAS_XRANDR (libWithScreen dupScreen)
      (fun _ => default) 10).2 = 4 ∧
    (_glfwPlatformGetVideoModes Build.HAS_XRANDR (libWithScreen dupScreen)
      (fun _ => default) 10).1 0 = ⟨800, 600, 8, 8, 8⟩ ∧
    (_glfwPlatformGetVideoModes Build.HAS_XRANDR (libWithScreen dupScreen)
      (fun _ => default) 10).1 1 = ⟨800, 600, 8, 8, 8⟩ := by
  decide

end GLFW
